import Mathlib

/-!
Verification of the vcore background job execution engine.

This file gives a shallow embedding, in Lean, of the engine code:
the job data model (`backend/models/job.py`), the job and scheduler CRUD
operations (`backend/crud/job.py`, `backend/crud/job_scheduler.py`,
`backend/crud/base.py`), the consumer tasks (`backend/jobs/execute_job.py`),
the scheduler evaluator (`backend/tasks/execute_scheduler.py`), the kill
operation (`backend/services/job_queue.py`) and the websocket broadcast hub
(`backend/core/websocket.py`), together with theorems settling the stated
claims about the engine.

Modelling conventions: UUIDs and timestamps are natural numbers; the
database table of jobs is a list in listing order; process execution and
OS signals are oracles passed as parameters; fallible paths return the
unchanged state.  Each definition names the Python function it embeds.
-/

namespace VCore

abbrev JobId := Nat
abbrev Time := Nat

/-- `JobType` enum from `backend/models/job.py`. -/
inductive JobType where
  | command
  | api_post
  | script
deriving DecidableEq, Repr

/-- `Priority` enum from `backend/models/job.py`. -/
inductive Priority where
  | highest
  | high
  | normal
  | low
  | lowest
deriving DecidableEq, Repr

/-- `JobStatus` enum from `backend/models/job.py`. -/
inductive JobStatus where
  | pending
  | queued
  | running
  | failed
  | done
  | cancelled
  | error
deriving DecidableEq, Repr

/-- The `Job` row from `backend/models/job.py` (`JobBase`). -/
structure Job where
  id : JobId
  env_name : String := "dev"
  name : String := ""
  type : JobType := JobType.command
  command : String := ""
  meta : List (String × String) := []
  pid : Option Nat := none
  priority : Priority := Priority.normal
  status : JobStatus := JobStatus.pending
  retry_count : Nat := 0
  created_at : Time := 0
  recurrence : Option String := none
  archived : Bool := false
  queue_name : String := "default"
deriving DecidableEq, Repr

/-- The job table, in database listing order. -/
abbrev Store := List Job

/-- `crud.job.sync.get(db, id=...)`: first row matching the id
(`BaseCrudMixin._get` in `backend/crud/base.py`). -/
def getJob (st : Store) (jid : JobId) : Option Job :=
  st.find? (fun j => j.id == jid)

/-- `crud.job.sync.get_all_jobs_for_env_name` from `backend/crud/job.py`:
filter by env, optionally by queue, excluding archived unless asked. -/
def get_all_jobs_for_env_name (st : Store) (env : String) (queue_name : Option String)
    (include_archived : Bool := false) : Store :=
  match queue_name with
  | none =>
    if include_archived then st.filter (fun j => j.env_name == env)
    else st.filter (fun j => j.env_name == env && !j.archived)
  | some q =>
    if include_archived then st.filter (fun j => j.env_name == env && j.queue_name == q)
    else st.filter (fun j => j.env_name == env && j.queue_name == q && !j.archived)

/-- `crud.job.sync.update(db, obj_in=JobUpdate(status=s), id=jid)`
(`BaseCrudMixin._update`): set the status of the row with the given id. -/
def updateJobStatus (st : Store) (jid : JobId) (s : JobStatus) : Store :=
  st.map (fun j => if j.id == jid then { j with status := s } else j)

/-- `crud.job.sync.update(db, obj_in=JobUpdate(pid=p), id=jid)`:
set the pid of the row with the given id. -/
def updateJobPid (st : Store) (jid : JobId) (p : Option Nat) : Store :=
  st.map (fun j => if j.id == jid then { j with pid := p } else j)

/-- The `priority_order` dict of `_trigger_next_queued_job`
(`backend/jobs/execute_job.py`, lines 43 to 49). -/
def priority_order : Priority → Nat
  | Priority.highest => 0
  | Priority.high => 1
  | Priority.normal => 2
  | Priority.low => 3
  | Priority.lowest => 4

/-- The sort key comparison used by `queued_jobs.sort(key=...)`:
ascending `priority_order`.  Python list sort is stable, as is
`List.mergeSort`. -/
def jobLE (a b : Job) : Bool :=
  priority_order a.priority ≤ priority_order b.priority

/-- The selection logic of `_trigger_next_queued_job`
(`backend/jobs/execute_job.py`, lines 31 to 52): list jobs for env and
queue, keep the queued ones, return early if none, otherwise stable-sort
by priority and take the first. -/
def selectNextQueuedJob (st : Store) (env queue_name : String) : Option Job :=
  let all_jobs := get_all_jobs_for_env_name st env (some queue_name)
  let queued_jobs := all_jobs.filter (fun j => j.status == JobStatus.queued)
  if queued_jobs.isEmpty then none
  else (queued_jobs.mergeSort jobLE).head?

/-- The queued jobs of a queue, in database listing order: the
`queued_jobs` list of `_trigger_next_queued_job` before sorting. -/
def queuedJobsList (st : Store) (env q : String) : Store :=
  (get_all_jobs_for_env_name st env (some q)).filter
    (fun j => j.status == JobStatus.queued)

/-- Outcome of actually running a job's payload (child process exit,
HTTP response, script result): an oracle for the external world seen by
`_execute_job`. -/
inductive ExecOutcome where
  | success
  | sigkill
  | timeout
  | failure
deriving DecidableEq, Repr

/-- Observable engine events, used to state ordering properties. -/
inductive Event where
  | statusSet (jid : JobId) (s : JobStatus)
  | pidSet (jid : JobId) (p : Nat)
  | jobCreated (jid : JobId)
  | lastRunSet (sid : Nat) (t : Time)
deriving DecidableEq, Repr

/-- The dispatch-on-type block of `_execute_job`
(`backend/jobs/execute_job.py`, lines 233 to 275) together with its
exception handlers, for a job already claimed as running.  `st1` is the
store after the claim.  Returns the store, the events, and the
`job_succeeded` flag.

For a `command` job, `_run_command_job` records the child pid first
(lines 92 to 96); SIGKILL death is special-cased to `pending`
(lines 240 to 251); other exceptions reach the outer handlers, where a
request timeout gives `error` (lines 261 to 267) and anything else gives
`failed` (lines 269 to 275).  `api_post` and `script` jobs never record a
pid and have no SIGKILL special case. -/
def dispatchStep (ty : JobType) (outcome : ExecOutcome) (pid : Nat) (jid : JobId)
    (st1 : Store) : Store × List Event × Bool :=
  match ty, outcome with
  | JobType.command, ExecOutcome.success =>
    (updateJobPid st1 jid (some pid), ([Event.pidSet jid pid], true))
  | JobType.command, ExecOutcome.sigkill =>
    (updateJobStatus (updateJobPid st1 jid (some pid)) jid JobStatus.pending,
      ([Event.pidSet jid pid, Event.statusSet jid JobStatus.pending], false))
  | JobType.command, ExecOutcome.timeout =>
    (updateJobStatus (updateJobPid st1 jid (some pid)) jid JobStatus.error,
      ([Event.pidSet jid pid, Event.statusSet jid JobStatus.error], false))
  | JobType.command, ExecOutcome.failure =>
    (updateJobStatus (updateJobPid st1 jid (some pid)) jid JobStatus.failed,
      ([Event.pidSet jid pid, Event.statusSet jid JobStatus.failed], false))
  | _, ExecOutcome.success => (st1, ([], true))
  | _, ExecOutcome.timeout =>
    (updateJobStatus st1 jid JobStatus.error, ([Event.statusSet jid JobStatus.error], false))
  | _, _ =>
    (updateJobStatus st1 jid JobStatus.failed, ([Event.statusSet jid JobStatus.failed], false))

/-- `_execute_job` from `backend/jobs/execute_job.py` (lines 193 to 289),
with the tail call to `_trigger_next_queued_job` (line 289) inlined,
since that function calls `_execute_job` directly (line 60).  `fuel`
bounds the depth of that chain; the engine entry point supplies enough
fuel for the whole queue.

Steps: load the job (missing means the task aborts with no store change);
abort if the observed status is not `queued` (lines 213 to 219); claim it
by setting `running` (lines 221 to 228); dispatch by type; in `finally`,
set `done` on success (lines 277 to 284); then select and execute the
next queued job of the same queue (line 289). -/
def executeJobFuel (env : String) (outcome : JobId → ExecOutcome) (pidOf : JobId → Nat) :
    Nat → Store → JobId → Store × List Event
  | 0, st, _ => (st, [])
  | fuel + 1, st, jid =>
    match getJob st jid with
    | none => (st, [])
    | some db_job =>
      if db_job.status = JobStatus.queued then
        let st1 := updateJobStatus st jid JobStatus.running
        let step := dispatchStep db_job.type (outcome jid) (pidOf jid) jid st1
        let st2 := step.1
        let evs2 := step.2.1
        let job_succeeded := step.2.2
        let st3 := if job_succeeded then updateJobStatus st2 jid JobStatus.done else st2
        let evs3 := if job_succeeded then [Event.statusSet jid JobStatus.done] else []
        let cont := match selectNextQueuedJob st3 env db_job.queue_name with
          | none => (st3, ([] : List Event))
          | some next_job => executeJobFuel env outcome pidOf fuel st3 next_job.id
        (cont.1, Event.statusSet jid JobStatus.running :: (evs2 ++ evs3 ++ cont.2))
      else (st, [])

/-- Entry point for `_execute_job(job_id)`: a store of `n` jobs can chain
through at most `n` executions, so `n + 1` fuel is enough. -/
def execute_job (env : String) (outcome : JobId → ExecOutcome) (pidOf : JobId → Nat)
    (st : Store) (jid : JobId) : Store × List Event :=
  executeJobFuel env outcome pidOf (st.length + 1) st jid

/-- `_trigger_next_queued_job` from `backend/jobs/execute_job.py`
(lines 24 to 60): select the next queued job and execute it. -/
def trigger_next_queued_job (env : String) (outcome : JobId → ExecOutcome)
    (pidOf : JobId → Nat) (st : Store) (queue_name : String) : Store × List Event :=
  match selectNextQueuedJob st env queue_name with
  | none => (st, [])
  | some next_job => execute_job env outcome pidOf st next_job.id

/-- `JobSchedulerTriggerType` from `backend/models/job_scheduler.py`;
the `repeat` member is spelled `repeats` here because `repeat` is a Lean
keyword. -/
inductive JobSchedulerTriggerType where
  | on_start
  | repeats
deriving DecidableEq, Repr

/-- The string `value` of a trigger type, as used in the spawned job name. -/
def JobSchedulerTriggerType.value : JobSchedulerTriggerType → String
  | JobSchedulerTriggerType.on_start => "on_start"
  | JobSchedulerTriggerType.repeats => "repeat"

/-- The `JobScheduler` row: persistent trigger producing jobs from a
stored template. -/
structure JobScheduler where
  id : Nat
  env_name : String := "dev"
  name : String := ""
  enabled : Bool := true
  trigger_type : JobSchedulerTriggerType := JobSchedulerTriggerType.repeats
  repeat_every_seconds : Option Nat := none
  job_template : Job
  last_run : Option Nat := none
deriving DecidableEq, Repr

/-- `get_repeat_schedulers_ready_to_run` from
`backend/crud/job_scheduler.py` (lines 22 to 33): enabled repeat
schedulers of the env whose `repeat_every_seconds` is not null and which
are due (`last_run` null, or `now - last_run >= repeat_every_seconds`,
computed over integers). -/
def get_repeat_schedulers_ready_to_run (scheds : List JobScheduler) (env : String)
    (now : Nat) : List JobScheduler :=
  let schedulers := scheds.filter (fun s =>
    s.env_name == env && s.trigger_type == JobSchedulerTriggerType.repeats && s.enabled)
  schedulers.filter (fun s =>
    match s.repeat_every_seconds with
    | none => false
    | some res =>
      match s.last_run with
      | none => true
      | some lr => decide ((now : Int) - (lr : Int) ≥ (res : Int)))

/-- `update_last_run` from `backend/crud/job_scheduler.py` (lines 35
to 40): set `last_run` of the scheduler with the given id to `now`. -/
def update_last_run (scheds : List JobScheduler) (scheduler_id : Nat) (now : Nat) :
    List JobScheduler :=
  scheds.map (fun s => if s.id == scheduler_id then { s with last_run := some now } else s)

/-- `_create_job_from_scheduler` from `backend/tasks/execute_scheduler.py`
(lines 8 to 16): validate the template as a job, rename it, and create it.
`freshId` stands for the `uuid4` default the validation assigns. -/
def create_job_from_scheduler (jobs : Store) (s : JobScheduler) (freshId : JobId) : Store :=
  jobs ++ [{ s.job_template with
    id := freshId,
    name := "Scheduled Job (" ++ s.trigger_type.value ++ "): " ++ s.name }]

/-- `check_repeat_schedulers` from `backend/tasks/execute_scheduler.py`
(lines 19 to 28): for each due repeat scheduler, create a job from its
template and THEN update its `last_run`.  Returns the job store, the
scheduler store, and the ordered event trace of the pass. -/
def check_repeat_schedulers (env : String) (now : Nat) (freshId : Nat → JobId)
    (jobs : Store) (scheds : List JobScheduler) :
    Store × List JobScheduler × List Event :=
  let ready_to_run := get_repeat_schedulers_ready_to_run scheds env now
  ready_to_run.foldl
    (fun acc s =>
      (create_job_from_scheduler acc.1 s (freshId s.id),
        update_last_run acc.2.1 s.id now,
        acc.2.2 ++ [Event.jobCreated (freshId s.id), Event.lastRunSet s.id now]))
    (jobs, scheds, [])

/-- The job spawned for a fired scheduler in `check_repeat_schedulers`. -/
def scheduledJobOf (s : JobScheduler) (freshId : Nat → JobId) : Job :=
  { s.job_template with
    id := freshId s.id,
    name := "Scheduled Job (" ++ s.trigger_type.value ++ "): " ++ s.name }

/-- The spawned instance built by `_enqueue_hourly_jobs` and
`_enqueue_daily_jobs` (`backend/jobs/execute_job.py`, lines 372 to 380
and 398 to 406): `model_copy` of the template with a fresh id, status
`queued`, `recurrence` cleared, `created_at` now and `retry_count` 0;
every other field is copied. -/
def spawnedJob (template : Job) (freshId : JobId) (now : Time) : Job :=
  { template with
    id := freshId,
    status := JobStatus.queued,
    recurrence := none,
    created_at := now,
    retry_count := 0 }

/-- `_enqueue_hourly_jobs` from `backend/jobs/execute_job.py` (lines 359
to 382): for each listed job of the env and queue with
`recurrence == "hourly"`, create a fresh instance.  `freshId` maps a
template id to the `uuid4` of its spawned copy. -/
def enqueue_hourly_jobs (st : Store) (env queue_name : String) (freshId : JobId → JobId)
    (now : Time) : Store :=
  let all_jobs := get_all_jobs_for_env_name st env (some queue_name)
  st ++ (all_jobs.filter (fun j => j.recurrence == some "hourly")).map
    (fun job => spawnedJob job (freshId job.id) now)

/-- `_enqueue_daily_jobs` from `backend/jobs/execute_job.py` (lines 385
to 408): same as the hourly variant with `recurrence == "daily"`. -/
def enqueue_daily_jobs (st : Store) (env queue_name : String) (freshId : JobId → JobId)
    (now : Time) : Store :=
  let all_jobs := get_all_jobs_for_env_name st env (some queue_name)
  st ++ (all_jobs.filter (fun j => j.recurrence == some "daily")).map
    (fun job => spawnedJob job (freshId job.id) now)

/-- `_spawn_recurring_jobs` from `backend/jobs/execute_job.py` (lines 411
to 417): hourly spawn followed by daily spawn. -/
def spawn_recurring_jobs (st : Store) (env queue_name : String)
    (freshIdHourly freshIdDaily : JobId → JobId) (now : Time) : Store :=
  enqueue_daily_jobs (enqueue_hourly_jobs st env queue_name freshIdHourly now)
    env queue_name freshIdDaily now

/-- `_check_and_process_queued_jobs` from `backend/jobs/execute_job.py`
(lines 292 to 318): if no job of the queue is running and some is queued,
trigger the next one. -/
def check_and_process_queued_jobs (env : String) (outcome : JobId → ExecOutcome)
    (pidOf : JobId → Nat) (st : Store) (queue_name : String) : Store × List Event :=
  let all_jobs := get_all_jobs_for_env_name st env (some queue_name)
  let running_jobs := all_jobs.filter (fun j => j.status == JobStatus.running)
  if running_jobs.isEmpty then
    let queued_jobs := all_jobs.filter (fun j => j.status == JobStatus.queued)
    if queued_jobs.isEmpty then (st, [])
    else trigger_next_queued_job env outcome pidOf st queue_name
  else (st, [])

/-- `_cleanup_stuck_jobs` from `backend/jobs/execute_job.py` (lines 321
to 356): every running job of the env and queue whose pid is absent,
zero, or no longer alive is marked `failed`.  `alive` is the
`os.kill(pid, 0)` oracle. -/
def cleanup_stuck_jobs (st : Store) (env queue_name : String) (alive : Nat → Bool) : Store :=
  st.map (fun j =>
    if j.env_name == env && j.queue_name == queue_name && !j.archived &&
        j.status == JobStatus.running then
      match j.pid with
      | some p => if p != 0 && alive p then j else { j with status := JobStatus.failed }
      | none => { j with status := JobStatus.failed }
    else j)

/-- `crontab(minute="*/n")`: matches when the minute is a multiple of n. -/
def cronEveryNMinutes (n minute : Nat) : Bool :=
  minute % n == 0

/-- `crontab(minute="m")`: matches at minute m of every hour. -/
def cronAtMinute (m minute : Nat) : Bool :=
  minute == m

/-- `crontab(minute="m", hour="h")`: matches at minute m of hour h. -/
def cronAtMinuteHour (m h minute hour : Nat) : Bool :=
  minute == m && hour == h

/-- The engine state seen by the periodic tasks of one consumer. -/
structure EngineState where
  jobs : Store
  schedulers : List JobScheduler
deriving DecidableEq, Repr

/-- One cron tick of the `default` queue consumer: the periodic tasks
registered on `huey_default` in `backend/jobs/execute_job.py` (lines 430
to 486), each run when its crontab matches the tick's hour and minute:

* `check_and_process_queued_jobs_default`, every minute (line 430);
* `check_and_process_job_schedulers`, every minute (line 435);
* `cleanup_stuck_jobs_default`, every 5 minutes (line 445);
* `enqueue_hourly_jobs_default`, at minute 0 (line 455);
* `enqueue_daily_jobs_default`, at minute 0 of hour 0 (line 467);
* `spawn_recurring_jobs_default`, at minute 0 (line 479).

`freshA` is the uuid supply of the dedicated hourly task, `freshB` of the
dedicated daily task, `freshC` and `freshD` of the hourly and daily calls
inside `_spawn_recurring_jobs`, `schedFresh` of the scheduler spawns. -/
def defaultQueueTick (env : String) (outcome : JobId → ExecOutcome) (pidOf : JobId → Nat)
    (alive : Nat → Bool) (freshA freshB freshC freshD : JobId → JobId)
    (schedFresh : Nat → JobId) (now : Time) (hour minute : Nat)
    (s : EngineState) : EngineState :=
  let s1 := if cronEveryNMinutes 1 minute then
      { s with jobs := (check_and_process_queued_jobs env outcome pidOf s.jobs "default").1 }
    else s
  let s2 := if cronEveryNMinutes 1 minute then
      let r := check_repeat_schedulers env now schedFresh s1.jobs s1.schedulers
      { jobs := r.1, schedulers := r.2.1 }
    else s1
  let s3 := if cronEveryNMinutes 5 minute then
      { s2 with jobs := cleanup_stuck_jobs s2.jobs env "default" alive }
    else s2
  let s4 := if cronAtMinute 0 minute then
      { s3 with jobs := enqueue_hourly_jobs s3.jobs env "default" freshA now }
    else s3
  let s5 := if cronAtMinuteHour 0 0 minute hour then
      { s4 with jobs := enqueue_daily_jobs s4.jobs env "default" freshB now }
    else s4
  let s6 := if cronAtMinute 0 minute then
      { s5 with jobs := spawn_recurring_jobs s5.jobs env "default" freshC freshD now }
    else s5
  s6

/-- Result of the `os.kill(pid, SIGKILL)` call in `kill_job_process`. -/
inductive KillOsResult where
  | ok
  | lookupError
  | otherError
deriving DecidableEq, Repr

/-- `kill_job_process` from `backend/services/job_queue.py` (lines 222
to 254): look up the job; when the pid is falsy (null or zero), set
`pending` and report failure; otherwise send SIGKILL and set `pending`
(also when the process was already gone); on any other OS error, change
nothing.  Returns the store and the `success` flag. -/
def kill_job_process (st : Store) (jid : JobId) (osKill : KillOsResult) : Store × Bool :=
  match getJob st jid with
  | none => (st, false)
  | some job =>
    match job.pid with
    | none => (updateJobStatus st jid JobStatus.pending, false)
    | some p =>
      if p == 0 then (updateJobStatus st jid JobStatus.pending, false)
      else
        match osKill with
        | KillOsResult.ok => (updateJobStatus st jid JobStatus.pending, true)
        | KillOsResult.lookupError => (updateJobStatus st jid JobStatus.pending, true)
        | KillOsResult.otherError => (st, false)

/-- `JobStatus(value)` as in the `PUT /jobs/id/status` handler: parse a
status string, or fail as Python's `ValueError`. -/
def JobStatus.ofValue : String → Option JobStatus
  | "pending" => some JobStatus.pending
  | "queued" => some JobStatus.queued
  | "running" => some JobStatus.running
  | "failed" => some JobStatus.failed
  | "done" => some JobStatus.done
  | "cancelled" => some JobStatus.cancelled
  | "error" => some JobStatus.error
  | _ => none

/-- Response of the status-update endpoint. -/
inductive ApiResult where
  | ok (message : String)
  | clientError (code : Nat) (detail : String)
  | serverError
deriving DecidableEq, Repr

/-- `update_job_status` from
`backend/routes/api/v1/endpoints/job_queue.py` (lines 108 to 135): a
missing or falsy `status` field gives 400; an unparsable value gives 400;
otherwise `crud.job.update` applies the new status unconditionally (a
missing job surfaces as a 500). -/
def update_job_status (st : Store) (job_id : JobId) (body_status : Option String) :
    Store × ApiResult :=
  match body_status with
  | none => (st, ApiResult.clientError 400 "Missing status in request body.")
  | some v =>
    if v == "" then (st, ApiResult.clientError 400 "Missing status in request body.")
    else
      match JobStatus.ofValue v with
      | none => (st, ApiResult.clientError 400 ("Invalid status: " ++ v))
      | some s =>
        match getJob st job_id with
        | none => (st, ApiResult.serverError)
        | some _ => (updateJobStatus st job_id s, ApiResult.ok "updated")

/-- A websocket subscriber of the hub; `healthy` says whether
`send_json` succeeds for it. -/
structure Subscriber where
  sid : Nat
  healthy : Bool
deriving DecidableEq, Repr

/-- The `for connection in self.active_connections` loop of
`WebSocketManager.broadcast` (`backend/core/websocket.py`, lines 18
to 24), with Python's index-based list iteration made explicit: a send
failure calls `disconnect`, which removes the subscriber from the very
list being iterated, after which the index still advances.  Returns the
final subscriber list and the sids that received the message.  `fuel` is
an upper bound on the number of iterations; the entry point supplies the
initial list length, which always suffices since the index grows by one
per iteration and the list never grows. -/
def broadcastLoop : Nat → List Subscriber → Nat → List Subscriber × List Nat
  | 0, conns, _ => (conns, [])
  | fuel + 1, conns, i =>
    if h : i < conns.length then
      let c := conns.get ⟨i, h⟩
      if c.healthy then
        let rest := broadcastLoop fuel conns (i + 1)
        (rest.1, c.sid :: rest.2)
      else
        broadcastLoop fuel (conns.erase c) (i + 1)
    else (conns, [])

/-- `WebSocketManager.broadcast` from `backend/core/websocket.py`. -/
def wsBroadcast (conns : List Subscriber) : List Subscriber × List Nat :=
  broadcastLoop conns.length conns 0

/-! ### Concrete fixtures used by witnesses and counterexamples -/

/-- A job already finished: observed status `done`. -/
def wJobDone : Job := { id := 1, status := JobStatus.done }

/-- A queued command job. -/
def wJobCmd : Job := { id := 4, status := JobStatus.queued, type := JobType.command }

/-- A running command job with a recorded pid. -/
def wJobRun : Job := { id := 3, status := JobStatus.running, pid := some 1234 }

/-- An hourly template whose own status is `queued`. -/
def wTemplateQueued : Job :=
  { id := 1, recurrence := some "hourly", status := JobStatus.queued }

/-- An hourly template parked in status `pending`. -/
def wTemplH : Job :=
  { id := 1, name := "H", recurrence := some "hourly", status := JobStatus.pending }

/-- A daily template parked in status `pending`. -/
def wTemplD : Job :=
  { id := 2, name := "D", recurrence := some "daily", status := JobStatus.pending }

/-- Execution oracle: every job payload succeeds. -/
def wOutcome : JobId → ExecOutcome := fun _ => ExecOutcome.success

/-- Execution oracle: every command child is killed by SIGKILL. -/
def wOutcomeK : JobId → ExecOutcome := fun _ => ExecOutcome.sigkill

/-- Pid oracle: every spawned child gets pid 77. -/
def wPid : JobId → Nat := fun _ => 77

/-- A repeat scheduler that is due (never ran, 60 s period). -/
def wSched60 : JobScheduler :=
  { id := 1, job_template := { id := 0 }, repeat_every_seconds := some 60 }

/-- An enabled repeat scheduler whose `repeat_every_seconds` is null. -/
def wSchedNull : JobScheduler := { id := 9, job_template := { id := 0 } }

/-- A re-queued command job still holding a stale pid 1234 from an
earlier kill. -/
def wJobCmdPid : Job :=
  { id := 4, status := JobStatus.queued, type := JobType.command, pid := some 1234 }

/-- A later-listed job; equal priority, larger `created_at`. -/
def wJobLater : Job := { id := 6, created_at := 10, status := JobStatus.queued }

/-- An earlier-created job listed after `wJobLater`. -/
def wJobEarlier : Job := { id := 7, created_at := 5, status := JobStatus.queued }

/-- A lone queued job. -/
def wJobQ : Job := { id := 8, status := JobStatus.queued }

/-! ### Helper lemmas about the store operations -/

theorem getJob_id {st : Store} {tid : JobId} {t : Job} (h : getJob st tid = some t) :
    t.id = tid := by
  have := List.find?_some h
  simpa using this

theorem getJob_map_of_id_preserved (g : Job → Job) (hg : ∀ j, (g j).id = j.id)
    (st : Store) (tid : JobId) :
    getJob (st.map g) tid = (getJob st tid).map g := by
  induction st with
  | nil => rfl
  | cons j t ih =>
    have hid : ((g j).id == tid) = (j.id == tid) := by rw [hg]
    by_cases h : (j.id == tid) = true
    · simp [getJob, List.find?_cons, hid, h]
    · simp only [getJob, List.map_cons, List.find?_cons, hid,
        Bool.not_eq_true] at *
      rw [h]
      simpa [getJob] using ih

theorem getJob_updateJobStatus (st : Store) (jid : JobId) (s : JobStatus) (tid : JobId) :
    getJob (updateJobStatus st jid s) tid =
      (getJob st tid).map (fun j => if j.id == jid then { j with status := s } else j) := by
  apply getJob_map_of_id_preserved
  intro j
  by_cases h : (j.id == jid) = true <;> simp [h]

theorem getJob_updateJobPid (st : Store) (jid : JobId) (p : Option Nat) (tid : JobId) :
    getJob (updateJobPid st jid p) tid =
      (getJob st tid).map (fun j => if j.id == jid then { j with pid := p } else j) := by
  apply getJob_map_of_id_preserved
  intro j
  by_cases h : (j.id == jid) = true <;> simp [h]

theorem getJob_updateJobStatus_ne {st : Store} {jid tid : JobId} (s : JobStatus)
    (hne : tid ≠ jid) :
    getJob (updateJobStatus st jid s) tid = getJob st tid := by
  rw [getJob_updateJobStatus]
  cases h : getJob st tid with
  | none => rfl
  | some t =>
    have ht : t.id = tid := getJob_id h
    simp [ht, hne]

theorem getJob_updateJobPid_ne {st : Store} {jid tid : JobId} (p : Option Nat)
    (hne : tid ≠ jid) :
    getJob (updateJobPid st jid p) tid = getJob st tid := by
  rw [getJob_updateJobPid]
  cases h : getJob st tid with
  | none => rfl
  | some t =>
    have ht : t.id = tid := getJob_id h
    simp [ht, hne]

theorem dispatchStep_preserves_other (ty : JobType) (oc : ExecOutcome) (pid : Nat)
    (jid : JobId) (st1 : Store) {tid : JobId} (hne : tid ≠ jid) :
    getJob (dispatchStep ty oc pid jid st1).1 tid = getJob st1 tid := by
  cases ty <;> cases oc <;>
    simp [dispatchStep, getJob_updateJobStatus_ne _ hne, getJob_updateJobPid_ne _ hne]

/-- Any job whose observed status is not `queued` is left untouched, with
all of its fields, by `_execute_job` and the whole chain of follow-up
executions it triggers. -/
theorem executeJobFuel_preserves_nonqueued (env : String) (outcome : JobId → ExecOutcome)
    (pidOf : JobId → Nat) :
    ∀ (fuel : Nat) (st : Store) (jid tid : JobId) (t : Job),
      getJob st tid = some t → t.status ≠ JobStatus.queued →
      getJob (executeJobFuel env outcome pidOf fuel st jid).1 tid = some t := by
  intro fuel
  induction fuel with
  | zero => intro st jid tid t h _; simpa [executeJobFuel] using h
  | succ fuel ih =>
    intro st jid tid t h hne
    simp only [executeJobFuel]
    cases hg : getJob st jid with
    | none => simpa using h
    | some db_job =>
      by_cases hq : db_job.status = JobStatus.queued
      · simp only [if_pos hq]
        have hne2 : tid ≠ jid := by
          intro e
          subst e
          rw [h] at hg
          cases hg
          exact hne hq
        have h1 : getJob (updateJobStatus st jid JobStatus.running) tid = some t := by
          rw [getJob_updateJobStatus_ne _ hne2]; exact h
        have h2 : getJob (dispatchStep db_job.type (outcome jid) (pidOf jid) jid
            (updateJobStatus st jid JobStatus.running)).1 tid = some t := by
          rw [dispatchStep_preserves_other _ _ _ _ _ hne2]; exact h1
        have h3 : ∀ st2 : Store, getJob st2 tid = some t →
            ∀ b : Bool, getJob (if b then updateJobStatus st2 jid JobStatus.done else st2)
              tid = some t := by
          intro st2 hst2 b
          cases b
          · simpa using hst2
          · simpa [getJob_updateJobStatus_ne _ hne2] using hst2
        have h3' := h3 _ h2 (dispatchStep db_job.type (outcome jid) (pidOf jid) jid
          (updateJobStatus st jid JobStatus.running)).2.2
        have hcont : ∀ (st3 : Store) (qn : String), getJob st3 tid = some t →
            getJob (match selectNextQueuedJob st3 env qn with
              | none => (st3, ([] : List Event))
              | some next_job => executeJobFuel env outcome pidOf fuel st3 next_job.id).1
              tid = some t := by
          intro st3 qn h3st
          cases hsel : selectNextQueuedJob st3 env qn with
          | none => simpa [hsel] using h3st
          | some next_job =>
            simp only [hsel]
            exact ih st3 next_job.id tid t h3st hne
        exact hcont _ _ h3'
      · simp only [if_neg hq]
        exact h

/-! ### Claim C1 -/

/-- Claim C1: for every call of `execute_job(job_id)`, the job's status is
advanced to `running` (and the job executed) only if the status observed
at load time was `queued`; any other observed status makes `execute_job`
return without modifying any job in the store.  Confirmed: the observed
non-queued status gives back the store unchanged with an empty event
trace, and the queued observation starts the trace with the claim
transition to `running`. -/
theorem claim_C1_race_safe_claim_check (env : String) (outcome : JobId → ExecOutcome)
    (pidOf : JobId → Nat) (st : Store) (jid : JobId) (job : Job)
    (h : getJob st jid = some job) :
    (job.status ≠ JobStatus.queued → execute_job env outcome pidOf st jid = (st, [])) ∧
    (job.status = JobStatus.queued →
      ∃ evs, (execute_job env outcome pidOf st jid).2 =
        Event.statusSet jid JobStatus.running :: evs) := by
  constructor
  · intro hne
    simp only [execute_job, executeJobFuel, h]
    rw [if_neg hne]
  · intro hqe
    simp only [execute_job, executeJobFuel, h]
    rw [if_pos hqe]
    exact ⟨_, rfl⟩

/-- Witness for C1: a store holding only a `done` job; `execute_job` on it
changes nothing and emits nothing. -/
theorem claim_C1_witness :
    execute_job "dev" wOutcome wPid [wJobDone] 1 = ([wJobDone], []) :=
  (claim_C1_race_safe_claim_check "dev" wOutcome wPid [wJobDone] 1 wJobDone (by decide)).1
    (by decide)

/-! ### Claim C10 -/

/-- Claim C10: an enabled repeat scheduler whose `repeat_every_seconds`
is null is never returned by the due-scheduler query, even when
`last_run` is null or arbitrarily old.  Confirmed: the ready filter of
`get_repeat_schedulers_ready_to_run` requires a non-null
`repeat_every_seconds` before looking at `last_run` at all. -/
theorem claim_C10_null_repeat_never_ready (scheds : List JobScheduler) (env : String)
    (now : Nat) (s : JobScheduler) (hnull : s.repeat_every_seconds = none) :
    s ∉ get_repeat_schedulers_ready_to_run scheds env now := by
  intro hmem
  unfold get_repeat_schedulers_ready_to_run at hmem
  simp only [List.mem_filter] at hmem
  obtain ⟨-, h2⟩ := hmem
  rw [hnull] at h2
  simp at h2

/-- Witness for C10: a concrete enabled repeat scheduler with null
`repeat_every_seconds` and null `last_run` is not ready to run. -/
theorem claim_C10_witness :
    wSchedNull ∉ get_repeat_schedulers_ready_to_run [wSchedNull] "dev" 1000000 :=
  claim_C10_null_repeat_never_ready [wSchedNull] "dev" 1000000 wSchedNull rfl

/-! ### Claim C5 -/

theorem check_repeat_schedulers_foldl (now : Nat) (freshId : Nat → JobId) :
    ∀ (l : List JobScheduler) (js : Store) (ss : List JobScheduler) (evs : List Event),
      l.foldl
        (fun acc s =>
          (create_job_from_scheduler acc.1 s (freshId s.id),
            update_last_run acc.2.1 s.id now,
            acc.2.2 ++ [Event.jobCreated (freshId s.id), Event.lastRunSet s.id now]))
        (js, ss, evs) =
      (js ++ l.map (fun s => scheduledJobOf s freshId),
        l.foldl (fun ss2 s => update_last_run ss2 s.id now) ss,
        evs ++ l.flatMap
          (fun s => [Event.jobCreated (freshId s.id), Event.lastRunSet s.id now])) := by
  intro l
  induction l with
  | nil => intro js ss evs; simp
  | cons r l ih =>
    intro js ss evs
    rw [List.foldl_cons, ih]
    simp only [create_job_from_scheduler, scheduledJobOf, List.map_cons, List.flatMap_cons]
    rw [List.append_assoc, List.append_assoc]
    rfl

/-- Counterexample to C5: with one due repeat scheduler, the very first
event of the scheduler pass is the creation of the spawned job; the
`last_run` update comes second.  The claim says `last_run` is set before
the job is created and enqueued, and that is false at this input. -/
theorem claim_C5_counterexample :
    (check_repeat_schedulers "dev" 1000 (fun sid => 100 + sid) [] [wSched60]).2.2 =
      [Event.jobCreated 101, Event.lastRunSet 1 1000] ∧
    (check_repeat_schedulers "dev" 1000 (fun sid => 100 + sid) [] [wSched60]).2.2.head? =
      some (Event.jobCreated 101) := by
  decide

/-- Claim C5 amended: for every scheduler pass, the event trace is, for
each due repeat scheduler in order, the creation of its spawned job
followed immediately by the update of its `last_run` to the spawn
instant; `last_run` is therefore set directly AFTER the job is created,
still within the same pass (the serialized consumer runs the next tick
only after the pass ends), not before the job is created.  The job store
receives exactly one new job per fired scheduler. -/
theorem claim_C5_amended_last_run_after_create (env : String) (now : Nat)
    (freshId : Nat → JobId) (jobs : Store) (scheds : List JobScheduler) :
    (check_repeat_schedulers env now freshId jobs scheds).2.2 =
      (get_repeat_schedulers_ready_to_run scheds env now).flatMap
        (fun s => [Event.jobCreated (freshId s.id), Event.lastRunSet s.id now]) ∧
    (check_repeat_schedulers env now freshId jobs scheds).1 =
      jobs ++ (get_repeat_schedulers_ready_to_run scheds env now).map
        (fun s => scheduledJobOf s freshId) := by
  unfold check_repeat_schedulers
  rw [check_repeat_schedulers_foldl]
  exact ⟨by simp, rfl⟩

/-! ### Claim C8 -/

theorem enqueue_spawn_mem_char (st : Store) (env q : String) (freshId : JobId → JobId)
    (now : Time) (rec : String) (j : Job)
    (hj : j ∈ ((get_all_jobs_for_env_name st env (some q)).filter
      (fun t => t.recurrence == some rec)).map
        (fun job => spawnedJob job (freshId job.id) now)) :
    ∃ t ∈ st, t.recurrence = some rec ∧ j = spawnedJob t (freshId t.id) now := by
  obtain ⟨t, ht, rfl⟩ := List.mem_map.mp hj
  obtain ⟨hmem, hrec⟩ := List.mem_filter.mp ht
  refine ⟨t, ?_, by simpa using hrec, rfl⟩
  unfold get_all_jobs_for_env_name at hmem
  simp only [Bool.false_eq_true, if_false] at hmem
  exact List.mem_of_mem_filter hmem

/-- Claim C8: each periodic spawn of an hourly or daily template creates
a new job with a fresh id, `created_at` equal to the spawn time, null
`recurrence`, zero `retry_count` and status `queued`, copying the
remaining fields from the template, while every pre-existing row
(including the template itself) is left in place unchanged.  Confirmed
for both `_enqueue_hourly_jobs` and `_enqueue_daily_jobs`. -/
theorem claim_C8_recurring_spawn_fields (st : Store) (env q : String)
    (freshId : JobId → JobId) (now : Time)
    (hfresh : ∀ tid : JobId, freshId tid ∉ st.map Job.id) :
    (enqueue_hourly_jobs st env q freshId now).take st.length = st ∧
    (enqueue_daily_jobs st env q freshId now).take st.length = st ∧
    (∀ j ∈ (enqueue_hourly_jobs st env q freshId now).drop st.length,
      ∃ t ∈ st, t.recurrence = some "hourly" ∧ j.id = freshId t.id ∧
        j.id ∉ st.map Job.id ∧ j.created_at = now ∧ j.recurrence = none ∧
        j.retry_count = 0 ∧ j.status = JobStatus.queued ∧ j.name = t.name ∧
        j.type = t.type ∧ j.command = t.command ∧ j.meta = t.meta ∧
        j.priority = t.priority ∧ j.queue_name = t.queue_name ∧
        j.env_name = t.env_name) ∧
    (∀ j ∈ (enqueue_daily_jobs st env q freshId now).drop st.length,
      ∃ t ∈ st, t.recurrence = some "daily" ∧ j.id = freshId t.id ∧
        j.id ∉ st.map Job.id ∧ j.created_at = now ∧ j.recurrence = none ∧
        j.retry_count = 0 ∧ j.status = JobStatus.queued ∧ j.name = t.name ∧
        j.type = t.type ∧ j.command = t.command ∧ j.meta = t.meta ∧
        j.priority = t.priority ∧ j.queue_name = t.queue_name ∧
        j.env_name = t.env_name) := by
  refine ⟨List.take_left st _, List.take_left st _, ?_, ?_⟩
  · intro j hj
    rw [enqueue_hourly_jobs, List.drop_left] at hj
    obtain ⟨t, htm, hrec, rfl⟩ := enqueue_spawn_mem_char st env q freshId now "hourly" j hj
    exact ⟨t, htm, hrec, rfl, hfresh t.id, by simp [spawnedJob]⟩
  · intro j hj
    rw [enqueue_daily_jobs, List.drop_left] at hj
    obtain ⟨t, htm, hrec, rfl⟩ := enqueue_spawn_mem_char st env q freshId now "daily" j hj
    exact ⟨t, htm, hrec, rfl, hfresh t.id, by simp [spawnedJob]⟩

/-- Witness for C8: one hourly template, a fresh id 100 unused in the
store; the original row survives the spawn in place. -/
theorem claim_C8_witness :
    (enqueue_hourly_jobs [wTemplH] "dev" "default" (fun _ => 100) 3600).take 1 =
      [wTemplH] :=
  (claim_C8_recurring_spawn_fields [wTemplH] "dev" "default" (fun _ => 100) 3600
    (by intro tid; simp [wTemplH])).1

/-! ### Claim C2 -/

/-- Counterexample to C2: a template (`recurrence = "hourly"`) whose own
status is `queued` IS selected by the dispatcher's `trigger_next` and IS
executed by `execute_job`, which advances its status through `running`
to `done`.  Neither function filters on `recurrence`.  The claim that no
engine operation ever advances a template past `queued` is false at this
input. -/
theorem claim_C2_counterexample :
    wTemplateQueued.recurrence ≠ none ∧
    selectNextQueuedJob [wTemplateQueued] "dev" "default" = some wTemplateQueued ∧
    (execute_job "dev" wOutcome wPid [wTemplateQueued] 1).1 =
      [{ wTemplateQueued with status := JobStatus.done, pid := some 77 }] := by
  refine ⟨by decide, ?_, by decide⟩
  have h1 : (get_all_jobs_for_env_name [wTemplateQueued] "dev" (some "default")).filter
      (fun j => j.status == JobStatus.queued) = [wTemplateQueued] := by decide
  simp only [selectNextQueuedJob]
  rw [h1]
  simp [List.mergeSort_singleton]

/-- Claim C2 amended: the periodic spawn operations never modify the
template's own row, and a template is protected from execution exactly as
long as its status is not `queued`: neither `execute_job` (whatever its
target) nor `trigger_next` touches a job observed in a non-queued status.
The engine does NOT special-case `recurrence`, so a template whose status
is `queued` is selected and executed like any ordinary queued job (see
the counterexample). -/
theorem claim_C2_amended_template_protection (st : Store) (env q : String)
    (freshId : JobId → JobId) (now : Time) (outcome : JobId → ExecOutcome)
    (pidOf : JobId → Nat) (tid jid : JobId) (t : Job)
    (ht : getJob st tid = some t) (htempl : t.recurrence ≠ none)
    (hst : t.status ≠ JobStatus.queued) :
    (enqueue_hourly_jobs st env q freshId now).take st.length = st ∧
    (enqueue_daily_jobs st env q freshId now).take st.length = st ∧
    getJob (execute_job env outcome pidOf st jid).1 tid = some t ∧
    getJob (trigger_next_queued_job env outcome pidOf st q).1 tid = some t := by
  refine ⟨List.take_left st _, List.take_left st _, ?_, ?_⟩
  · exact executeJobFuel_preserves_nonqueued env outcome pidOf _ st jid tid t ht hst
  · unfold trigger_next_queued_job
    cases hsel : selectNextQueuedJob st env q with
    | none => simpa using ht
    | some nj =>
      exact executeJobFuel_preserves_nonqueued env outcome pidOf _ st nj.id tid t ht hst

/-- Witness for C2: an hourly template parked in `pending` is untouched
by `execute_job`. -/
theorem claim_C2_witness :
    getJob (execute_job "dev" wOutcome wPid [wTemplH] 1).1 1 = some wTemplH :=
  (claim_C2_amended_template_protection [wTemplH] "dev" "default" (fun _ => 100) 3600
    wOutcome wPid 1 1 wTemplH (by decide) (by decide) (by decide)).2.2.1

/-! ### Claim C6 -/

theorem getJob_updateJobStatus_self {st : Store} {jid : JobId} {job : Job}
    (h : getJob st jid = some job) (s : JobStatus) :
    getJob (updateJobStatus st jid s) jid = some { job with status := s } := by
  rw [getJob_updateJobStatus, h]
  have := getJob_id h
  simp [this]

theorem getJob_updateJobPid_self {st : Store} {jid : JobId} {job : Job}
    (h : getJob st jid = some job) (p : Option Nat) :
    getJob (updateJobPid st jid p) jid = some { job with pid := p } := by
  rw [getJob_updateJobPid, h]
  have := getJob_id h
  simp [this]

/-- Counterexample to C6: both on the kill operation and on a SIGKILL
death of a command job only the status is patched (`JobUpdate(status=
pending)`); the `pid` column keeps its old value rather than being
cleared to null, as the claim requires. -/
theorem claim_C6_counterexample :
    (kill_job_process [wJobRun] 3 KillOsResult.ok).2 = true ∧
    getJob (kill_job_process [wJobRun] 3 KillOsResult.ok).1 3 =
      some { wJobRun with status := JobStatus.pending } ∧
    (getJob (kill_job_process [wJobRun] 3 KillOsResult.ok).1 3).map Job.pid ≠
      some none ∧
    getJob (execute_job "dev" wOutcomeK wPid [wJobCmd] 4).1 4 =
      some { wJobCmd with status := JobStatus.pending, pid := some 77 } ∧
    (getJob (execute_job "dev" wOutcomeK wPid [wJobCmd] 4).1 4).map Job.pid ≠
      some none := by
  decide

/-- Claim C6 amended: a SIGKILL death of a running command job, and a
kill of a job with a live pid, both transition the job's status to
`pending` (not `failed`); the `pid` field, however, is NOT cleared: the
kill path leaves every field but `status` as it was, and the command
path leaves the job holding the pid of the dead child. -/
theorem claim_C6_amended_kill_pending_pid_kept (st : Store) (env : String)
    (outcome : JobId → ExecOutcome) (pidOf : JobId → Nat) (jid : JobId) (job : Job)
    (p : Nat) (h : getJob st jid = some job) (hp : job.pid = some p) (hpz : p ≠ 0)
    (hq : job.status = JobStatus.queued) (hty : job.type = JobType.command)
    (hoc : outcome jid = ExecOutcome.sigkill) :
    kill_job_process st jid KillOsResult.ok =
      (updateJobStatus st jid JobStatus.pending, true) ∧
    getJob (kill_job_process st jid KillOsResult.ok).1 jid =
      some { job with status := JobStatus.pending } ∧
    ({ job with status := JobStatus.pending }).pid = some p ∧
    getJob (execute_job env outcome pidOf st jid).1 jid =
      some { job with pid := some (pidOf jid), status := JobStatus.pending } := by
  have hkill : kill_job_process st jid KillOsResult.ok =
      (updateJobStatus st jid JobStatus.pending, true) := by
    simp only [kill_job_process, h, hp]
    simp [hpz]
  refine ⟨hkill, ?_, hp, ?_⟩
  · rw [hkill]
    exact getJob_updateJobStatus_self h JobStatus.pending
  · simp only [execute_job, executeJobFuel, h, if_pos hq, hty, hoc, dispatchStep]
    have hst3 : getJob (updateJobStatus (updateJobPid (updateJobStatus st jid
        JobStatus.running) jid (some (pidOf jid))) jid JobStatus.pending) jid =
        some { job with pid := some (pidOf jid), status := JobStatus.pending } :=
      getJob_updateJobStatus_self (getJob_updateJobPid_self
        (getJob_updateJobStatus_self h JobStatus.running) (some (pidOf jid)))
        JobStatus.pending
    have hcont : ∀ (st3 : Store) (qn : String) (t : Job), t.status ≠ JobStatus.queued →
        getJob st3 jid = some t →
        getJob (match selectNextQueuedJob st3 env qn with
          | none => (st3, ([] : List Event))
          | some next_job =>
            executeJobFuel env outcome pidOf st.length st3 next_job.id).1 jid =
          some t := by
      intro st3 qn t htne h3
      cases hsel : selectNextQueuedJob st3 env qn with
      | none => simpa [hsel] using h3
      | some nj =>
        simp only [hsel]
        exact executeJobFuel_preserves_nonqueued env outcome pidOf st.length st3 nj.id
          jid t h3 htne
    simpa [hty] using hcont _ _ _ (by simp) hst3

theorem claim_C6_witness :
    kill_job_process [wJobCmdPid] 4 KillOsResult.ok =
      (updateJobStatus [wJobCmdPid] 4 JobStatus.pending, true) :=
  (claim_C6_amended_kill_pending_pid_kept [wJobCmdPid] "dev" wOutcomeK wPid 4 wJobCmdPid
    1234 (by decide) (by decide) (by decide) (by decide) (by decide) (by decide)).1

/-! ### Claim C7 -/

/-- Counterexample to C7: the status endpoint applies the illegal
transition `done → running` (not in the legal set) and reports success;
nothing in the route or in `BaseCrudMixin._update` validates
transitions. -/
theorem claim_C7_counterexample :
    update_job_status [wJobDone] 1 (some "running") =
      ([{ wJobDone with status := JobStatus.running }], ApiResult.ok "updated") ∧
    wJobDone.status = JobStatus.done := by
  decide

/-- Claim C7 amended: the endpoint validates only the VALUE of the
requested status, never the transition: a missing or empty `status`
field and an unrecognized value are rejected with 400 and leave the
store unchanged, while every recognized status value is applied
unconditionally whatever the job's current status (a missing job id
surfaces as a 500, also without changes). -/
theorem claim_C7_amended_no_transition_validation (st : Store) (jid : JobId)
    (v : String) (s : JobStatus) (job : Job)
    (hparse : JobStatus.ofValue v = some s) (hjob : getJob st jid = some job) :
    update_job_status st jid (some v) =
      (updateJobStatus st jid s, ApiResult.ok "updated") ∧
    getJob (update_job_status st jid (some v)).1 jid = some { job with status := s } ∧
    update_job_status st jid none =
      (st, ApiResult.clientError 400 "Missing status in request body.") ∧
    (∀ w : String, JobStatus.ofValue w = none →
      (update_job_status st jid (some w)).1 = st ∧
      ∀ code detail, (update_job_status st jid (some w)).2 =
        ApiResult.clientError code detail → code = 400) := by
  have hv : (v == "") = false := by
    cases hve : v == ""
    · rfl
    · have hde : JobStatus.ofValue "" = none := rfl
      rw [eq_of_beq hve, hde] at hparse
      cases hparse
  have happ : update_job_status st jid (some v) =
      (updateJobStatus st jid s, ApiResult.ok "updated") := by
    simp only [update_job_status, hv, hparse, hjob]
    rfl
  refine ⟨happ, ?_, rfl, ?_⟩
  · rw [happ]
    exact getJob_updateJobStatus_self hjob s
  · intro w hw
    by_cases hwe : (w == "") = true
    · refine ⟨by simp [update_job_status, hwe], ?_⟩
      intro code detail hcd
      simp [update_job_status, hwe, ApiResult.clientError.injEq] at hcd
      exact hcd.1.symm
    · rw [Bool.not_eq_true] at hwe
      refine ⟨by simp [update_job_status, hwe, hw], ?_⟩
      intro code detail hcd
      simp [update_job_status, hwe, hw, ApiResult.clientError.injEq] at hcd
      exact hcd.1.symm

/-- Witness for C7: a concrete `done` job moved to `running` through the
endpoint. -/
theorem claim_C7_witness :
    update_job_status [wJobDone] 1 (some "running") =
      (updateJobStatus [wJobDone] 1 JobStatus.running, ApiResult.ok "updated") :=
  (claim_C7_amended_no_transition_validation [wJobDone] 1 "running" JobStatus.running
    wJobDone (by decide) (by decide)).1

/-! ### Claim C9 -/

/-- Claim C9, code bug: `WebSocketManager.broadcast` removes a failing
subscriber from `active_connections` while the `for` loop is iterating
over that same list, so the element that slides into the failed
subscriber's position is skipped.  With subscribers `[dead, live]`, the
dead one is detached and the live one — whose send would succeed — never
receives the message even though it stays attached: delivery to every
remaining subscriber, as the claim and the code's own intent ("remove
dead connections" while pushing to every subscriber) require, fails.
The call itself still raises nothing. -/
theorem claim_C9_broadcast_skips_after_failure :
    wsBroadcast [{ sid := 1, healthy := false }, { sid := 2, healthy := true }] =
      ([{ sid := 2, healthy := true }], []) ∧
    ({ sid := 2, healthy := true } : Subscriber).healthy = true ∧
    wsBroadcast [{ sid := 2, healthy := true }] = ([{ sid := 2, healthy := true }], [2]) := by
  decide

/-! ### Claim C4 -/

/-- Claim C4, code bug: at an hour boundary that is not midnight
(here 01:00), the registered periodic tasks of the default queue spawn
every hourly template TWICE (once through `enqueue_hourly_jobs_default`,
once through `spawn_recurring_jobs_default`, both registered at
`crontab(minute="0")`), and every daily template ONCE (through
`spawn_recurring_jobs_default`, although the dedicated daily task is
registered for midnight only).  The claim — one instance per boundary,
daily only at midnight — is false on the code; the duplicated, mutually
conflicting registrations are the slip. -/
theorem claim_C4_double_spawn_eval :
    ((defaultQueueTick "dev" wOutcome wPid (fun _ => true) (fun t => 10 + t)
        (fun t => 20 + t) (fun t => 30 + t) (fun t => 40 + t) (fun sid => 50 + sid)
        3600 1 0 { jobs := [wTemplH, wTemplD], schedulers := [] }).jobs.filter
      (fun j => j.recurrence == none && j.name == "H")).length = 2 ∧
    ((defaultQueueTick "dev" wOutcome wPid (fun _ => true) (fun t => 10 + t)
        (fun t => 20 + t) (fun t => 30 + t) (fun t => 40 + t) (fun sid => 50 + sid)
        3600 1 0 { jobs := [wTemplH, wTemplD], schedulers := [] }).jobs.filter
      (fun j => j.recurrence == none && j.name == "D")).length = 1 ∧
    (defaultQueueTick "dev" wOutcome wPid (fun _ => true) (fun t => 10 + t)
        (fun t => 20 + t) (fun t => 30 + t) (fun t => 40 + t) (fun sid => 50 + sid)
        3600 1 0 { jobs := [wTemplH, wTemplD], schedulers := [] }).jobs.take 2 =
      [wTemplH, wTemplD] := by
  decide

/-! ### Claim C3 -/

theorem selectNextQueuedJob_eq (st : Store) (env q : String) :
    selectNextQueuedJob st env q =
      if (queuedJobsList st env q).isEmpty then none
      else ((queuedJobsList st env q).mergeSort jobLE).head? := rfl

theorem jobLE_trans : ∀ (a b c : Job), jobLE a b → jobLE b c → jobLE a c := by
  intro a b c
  simp only [jobLE, decide_eq_true_eq]
  omega

theorem jobLE_total : ∀ (a b : Job), jobLE a b || jobLE b a := by
  intro a b
  simp only [jobLE, Bool.or_eq_true, decide_eq_true_eq]
  omega

/-- Counterexample to C3: two queued jobs of equal priority where the
job listed first was created later.  The dispatcher's stable sort keeps
the listing order, so it selects the job with the LARGER `created_at`:
ties are not broken by `created_at` ascending as the claim states. -/
theorem claim_C3_counterexample :
    selectNextQueuedJob [wJobLater, wJobEarlier] "dev" "default" = some wJobLater ∧
    wJobLater.priority = wJobEarlier.priority ∧
    wJobEarlier ∈ queuedJobsList [wJobLater, wJobEarlier] "dev" "default" ∧
    wJobEarlier.created_at < wJobLater.created_at := by
  refine ⟨?_, by decide, by decide, by decide⟩
  have h1 : queuedJobsList [wJobLater, wJobEarlier] "dev" "default" =
      [wJobLater, wJobEarlier] := by decide
  have h2 : List.mergeSort [wJobLater, wJobEarlier] jobLE = [wJobLater, wJobEarlier] :=
    List.mergeSort_of_sorted (by decide)
  rw [selectNextQueuedJob_eq, h1, h2]
  rfl

theorem pair_sublist_of_indexOf_lt {α : Type} [DecidableEq α] :
    ∀ (l : List α) (a b : α), b ∈ l → a ≠ b → l.indexOf a < l.indexOf b →
      List.Sublist [a, b] l := by
  intro l
  induction l with
  | nil => intro a b hb _ _; cases hb
  | cons x t ih =>
    intro a b hb hne hlt
    by_cases hax : a = x
    · subst hax
      have hbt : b ∈ t := by
        cases List.mem_cons.mp hb with
        | inl h => exact absurd h (fun e => hne e.symm)
        | inr h => exact h
      exact List.Sublist.cons₂ a (List.singleton_sublist.mpr hbt)
    · have hbx : b ≠ x := by
        intro e
        subst e
        rw [List.indexOf_cons_self] at hlt
        exact Nat.not_lt_zero _ hlt
      have hbt : b ∈ t := by
        cases List.mem_cons.mp hb with
        | inl h => exact absurd h hbx
        | inr h => exact h
      rw [List.indexOf_cons_ne t (fun e => hax e.symm),
        List.indexOf_cons_ne t (fun e => hbx e.symm)] at hlt
      exact List.Sublist.cons x (ih a b hbt hne (Nat.succ_lt_succ_iff.mp hlt))

/-- Claim C3 amended: the selected job is one of the queued jobs of the
queue and its priority rank is minimal among them (the priority half of
the claim holds); among jobs of EQUAL priority, however, the selection
takes the job EARLIEST IN THE STORE LISTING ORDER (the Python sort is
stable and no `created_at` key is used), not the one with the smallest
`created_at`. -/
theorem claim_C3_amended_selection (st : Store) (env q : String) (j : Job)
    (hsel : selectNextQueuedJob st env q = some j) :
    j ∈ queuedJobsList st env q ∧
    (∀ j' ∈ queuedJobsList st env q,
      priority_order j.priority ≤ priority_order j'.priority) ∧
    ((queuedJobsList st env q).Nodup →
      ∀ j' ∈ queuedJobsList st env q,
        priority_order j'.priority = priority_order j.priority →
        (queuedJobsList st env q).indexOf j ≤ (queuedJobsList st env q).indexOf j') := by
  rw [selectNextQueuedJob_eq] at hsel
  by_cases hemp : (queuedJobsList st env q).isEmpty
  · rw [if_pos hemp] at hsel
    cases hsel
  · rw [if_neg hemp] at hsel
    cases hs : List.mergeSort (queuedJobsList st env q) jobLE with
    | nil =>
      rw [hs] at hsel
      cases hsel
    | cons a rest =>
      rw [hs] at hsel
      simp only [List.head?_cons, Option.some.injEq] at hsel
      subst hsel
      have hperm := List.mergeSort_perm (queuedJobsList st env q) jobLE
      rw [hs] at hperm
      have hmemj : a ∈ queuedJobsList st env q :=
        hperm.mem_iff.mp (List.mem_cons_self a rest)
      have hpw := List.sorted_mergeSort jobLE_trans jobLE_total (queuedJobsList st env q)
      rw [hs] at hpw
      have hmin : ∀ x ∈ rest, jobLE a x := (List.pairwise_cons.mp hpw).1
      refine ⟨hmemj, ?_, ?_⟩
      · intro j' hj'
        cases List.mem_cons.mp (hperm.mem_iff.mpr hj') with
        | inl he =>
          rw [he]
        | inr hr =>
          have := hmin j' hr
          simpa [jobLE] using this
      · intro hnd j' hj' hrk
        by_contra hgt
        rw [Nat.not_le] at hgt
        have hnej : j' ≠ a := by
          intro e
          subst e
          exact Nat.lt_irrefl _ hgt
        have hpairsub : List.Sublist [j', a] (queuedJobsList st env q) :=
          pair_sublist_of_indexOf_lt (queuedJobsList st env q) j' a hmemj hnej hgt
        have hle : jobLE j' a := by
          simp [jobLE, hrk]
        have hsub := List.pair_sublist_mergeSort jobLE_trans jobLE_total hle hpairsub
        rw [hs] at hsub
        have hnds : (a :: rest).Nodup := by
          rw [← hs]
          exact (List.mergeSort_perm (queuedJobsList st env q) jobLE).symm.nodup hnd
        obtain ⟨hanotin, -⟩ := List.nodup_cons.mp hnds
        cases hsub with
        | cons _ h => exact hanotin (h.subset (by simp))
        | cons₂ _ h => exact hanotin (List.singleton_sublist.mp h)

/-- Witness for C3: a single queued job is selected and belongs to the
queued list. -/
theorem claim_C3_witness :
    wJobQ ∈ queuedJobsList [wJobQ] "dev" "default" :=
  (claim_C3_amended_selection [wJobQ] "dev" "default" wJobQ (by
    have h1 : queuedJobsList [wJobQ] "dev" "default" = [wJobQ] := by decide
    rw [selectNextQueuedJob_eq, h1, List.mergeSort_singleton]
    rfl)).1

end VCore
